import Mathlib

/-
Verification development for the RustGrapher surface-plotting core
(src/main.rs).  The numerical pipeline is embedded shallowly:

* `f64`/`f32` values are modelled as exact rationals (`ℚ`) for the grid,
  color and projection pipeline, and as reals (`ℝ`) for the trigonometric
  rotation-matrix builder.  The `as u8` saturating float-to-integer cast is
  modelled exactly (clamp to `[0, 255]`, then truncate toward zero).
* The running `min_z`/`max_z` trackers, initialised in the source to the
  sentinels `f64::MAX` / `f64::MIN` and updated only on successful
  evaluations, are modelled as `Option` values (`none` = still at the
  sentinel, i.e. no success seen yet); the source's degeneracy test
  `max_z > min_z` is `false` exactly when the option model's test is.
* `meval::Expr` (an external library type) is modelled by its evaluation
  behaviour: a function from the two variable bindings to either an
  evaluation error or an IEEE result that is finite or not.
* Out-of-bounds vector indexing panics in Rust; the embedding totalises it
  with a default vertex.  All claims below only touch in-bounds indices.
-/

namespace RustGrapher

/-- Model of `egui::Color32` (an sRGBA quadruple of bytes); the program only
builds fully opaque colors via `from_rgb`, `from_gray` and the named
constants. -/
structure Color32 where
  r : ℕ
  g : ℕ
  b : ℕ
  a : ℕ
  deriving DecidableEq

def Color32.from_rgb (r g b : ℕ) : Color32 := ⟨r, g, b, 255⟩

def Color32.BLACK : Color32 := ⟨0, 0, 0, 255⟩

def Color32.WHITE : Color32 := ⟨255, 255, 255, 255⟩

def Color32.from_gray (v : ℕ) : Color32 := ⟨v, v, v, 255⟩

/-- Model of `glam::Vec3` over a field of scalars. -/
structure Vec3 (K : Type) where
  x : K
  y : K
  z : K
  deriving DecidableEq

/-- Model of `glam::Mat3`, as a 3×3 matrix with rows `(m00 m01 m02)`,
`(m10 m11 m12)`, `(m20 m21 m22)` acting on column vectors. -/
structure Mat3 (K : Type) where
  m00 : K
  m01 : K
  m02 : K
  m10 : K
  m11 : K
  m12 : K
  m20 : K
  m21 : K
  m22 : K
  deriving DecidableEq

section Linear

variable {K : Type} [Field K]

def Vec3.zero : Vec3 K := ⟨0, 0, 0⟩

/-- Matrix-matrix product, `A * B` in glam. -/
def Mat3.mul (A B : Mat3 K) : Mat3 K :=
  ⟨A.m00 * B.m00 + A.m01 * B.m10 + A.m02 * B.m20,
   A.m00 * B.m01 + A.m01 * B.m11 + A.m02 * B.m21,
   A.m00 * B.m02 + A.m01 * B.m12 + A.m02 * B.m22,
   A.m10 * B.m00 + A.m11 * B.m10 + A.m12 * B.m20,
   A.m10 * B.m01 + A.m11 * B.m11 + A.m12 * B.m21,
   A.m10 * B.m02 + A.m11 * B.m12 + A.m12 * B.m22,
   A.m20 * B.m00 + A.m21 * B.m10 + A.m22 * B.m20,
   A.m20 * B.m01 + A.m21 * B.m11 + A.m22 * B.m21,
   A.m20 * B.m02 + A.m21 * B.m12 + A.m22 * B.m22⟩

/-- Matrix-vector product, `M * v` in glam. -/
def Mat3.mulVec (A : Mat3 K) (v : Vec3 K) : Vec3 K :=
  ⟨A.m00 * v.x + A.m01 * v.y + A.m02 * v.z,
   A.m10 * v.x + A.m11 * v.y + A.m12 * v.z,
   A.m20 * v.x + A.m21 * v.y + A.m22 * v.z⟩

/-- Componentwise scalar scaling, `v * zoom` in glam. -/
def Vec3.smul (v : Vec3 K) (c : K) : Vec3 K := ⟨v.x * c, v.y * c, v.z * c⟩

def Mat3.identity : Mat3 K := ⟨1, 0, 0, 0, 1, 0, 0, 0, 1⟩

end Linear

/-- Rust saturating float-to-`u8` cast `v as u8`: clamp into `[0, 255]`,
then truncate toward zero (for the clamped, nonnegative value this is the
floor). -/
def f64_as_u8 {K : Type} [LinearOrderedField K] [FloorRing K] (q : K) : ℕ :=
  if q ≤ 0 then 0 else if 255 ≤ q then 255 else (⌊q⌋).toNat

/-- `color_from_height` from src/main.rs: heights outside `[0, 1]` map to
black; below `0.5` a blue-to-green ramp, from `0.5` a green-to-red ramp,
with each channel computed as `(expr * 255.0) as u8`. -/
def color_from_height {K : Type} [LinearOrderedField K] [FloorRing K]
    (height : K) : Color32 :=
  if height < 0 ∨ height > 1 then Color32.BLACK
  else if height < 1/2 then
    let t := height * 2
    Color32.from_rgb (f64_as_u8 (t * 255)) (f64_as_u8 (t * 255)) (f64_as_u8 ((1 - t) * 255))
  else
    let t := (height - 1/2) * 2
    Color32.from_rgb 255 (f64_as_u8 ((1 - t) * 255)) 0

/-- Reference definition written from the spec's words for the color
mapper, which prescribes `round` for each interpolated channel
(`red = green = round(255t)`, `blue = round(255(1-t))`, and
`green = round(255(1-t))` on the upper ramp). -/
def color_from_height_spec (h : ℚ) : Color32 :=
  if h < 0 ∨ h > 1 then Color32.BLACK
  else if h < 1/2 then
    let t := 2 * h
    Color32.from_rgb (round (255 * t)).toNat (round (255 * t)).toNat
      (round (255 * (1 - t))).toNat
  else
    let t := 2 * (h - 1/2)
    Color32.from_rgb 255 (round (255 * (1 - t))).toNat 0

/-- The spec's reference color mapper amended to use the saturating
truncation-toward-zero conversion that the Rust cast `as u8` performs,
in place of `round`. -/
def color_from_height_spec_trunc (h : ℚ) : Color32 :=
  if h < 0 ∨ h > 1 then Color32.BLACK
  else if h < 1/2 then
    let t := 2 * h
    Color32.from_rgb (f64_as_u8 (255 * t)) (f64_as_u8 (255 * t))
      (f64_as_u8 (255 * (1 - t)))
  else
    let t := 2 * (h - 1/2)
    Color32.from_rgb 255 (f64_as_u8 (255 * (1 - t))) 0

/-- Model of `Vertex3D` from src/main.rs. -/
structure Vertex3D (K : Type) where
  position : Vec3 K
  color : Color32
  deriving DecidableEq

/-- Default vertex used to totalise out-of-bounds grid indexing (which
panics in Rust; every claim below indexes in bounds). -/
def defaultVertex (K : Type) [Field K] : Vertex3D K := ⟨⟨0, 0, 0⟩, Color32.WHITE⟩

/-- Model of `Surface` from src/main.rs: a grid of vertices stored as rows
(`vertices[i][j]`, row index `i`, column index `j`). -/
structure Surface (K : Type) where
  vertices : List (List (Vertex3D K))
  range : K
  resolution : ℕ
  deriving DecidableEq

section SurfaceOps

variable {K : Type} [LinearOrderedField K] [FloorRing K]

/-- `Surface::new`: a `(resolution+1) × (resolution+1)` grid of vertices at
the origin, colored white. -/
def Surface.new (resolution : ℕ) (range : K) : Surface K :=
  ⟨List.replicate (resolution + 1)
      (List.replicate (resolution + 1) ⟨⟨0, 0, 0⟩, Color32.WHITE⟩),
   range, resolution⟩

/-- `self.vertices[i][j]` (in-bounds access; out of bounds yields the
default vertex where Rust would panic). -/
def vertexAt (s : Surface K) (i j : ℕ) : Vertex3D K :=
  (s.vertices.getD i []).getD j (defaultVertex K)

/-- The sample coordinate `-range + k * step` with
`step = 2 * range / resolution`, used for both axes of the grid. -/
def gridCoord (range : K) (res : ℕ) (k : ℕ) : K :=
  -range + (k : K) * (2 * range / (res : K))

/-- First-pass body of `generate_from_expression`: on success the position
becomes `(x, y, z)`, on failure `(x, y, 0.0)`; the color field is the one
already stored in the grid (it is overwritten by the second pass). -/
def firstPassVertex (f : K → K → Option K) (old : Vertex3D K) (x y : K) : Vertex3D K :=
  match f x y with
  | some z => { old with position := ⟨x, y, z⟩ }
  | none => { old with position := ⟨x, y, 0⟩ }

/-- The `(x, y)` sample points of the doubly nested first-pass loop, in
loop order: outer index `i` gives `y`, inner index `j` gives `x`. -/
def loopPoints (res : ℕ) (range : K) : List (K × K) :=
  (List.range (res + 1)).flatMap fun i =>
    (List.range (res + 1)).map fun j => (gridCoord range res j, gridCoord range res i)

/-- One step of the running `min_z` / `max_z` update: both trackers move
only when the evaluator succeeds.  `none` models the untouched sentinels
`f64::MAX` / `f64::MIN`. -/
def mmStep (f : K → K → Option K) (acc : Option K × Option K) (p : K × K) :
    Option K × Option K :=
  match f p.1 p.2 with
  | some z =>
      (some (match acc.1 with | none => z | some m => min m z),
       some (match acc.2 with | none => z | some m => max m z))
  | none => acc

/-- The `min_z` / `max_z` trackers after the first pass over the given
sample points. -/
def trackMinMax (f : K → K → Option K) (pts : List (K × K)) : Option K × Option K :=
  pts.foldl (mmStep f) (none, none)

/-- The source's degeneracy test `max_z > min_z`; with the sentinel
initial values it is false exactly when fewer than two distinct success
values were seen, i.e. when the option model cannot exhibit `min < max`. -/
def degenCheck : Option K × Option K → Bool
  | (some a, some b) => decide (a < b)
  | (_, _) => false

/-- Second-pass normalisation: `z_range` is `max - min` when the range is
non-degenerate and `1.0` otherwise, and the normalised height is
`(z - min) / z_range` in the non-degenerate case and `0.5` otherwise. -/
def normalizeZ (mm : Option K × Option K) (z : K) : K :=
  let z_range := if degenCheck mm then mm.2.getD 0 - mm.1.getD 0 else 1
  if degenCheck mm then (z - mm.1.getD 0) / z_range else 1/2

/-- `Surface::generate_from_expression`: first pass writes every position
(and finds `min_z`/`max_z` over the successes), second pass overwrites
every color from the normalised height. -/
def Surface.generate_from_expression (s : Surface K) (f : K → K → Option K) :
    Surface K :=
  let res := s.resolution
  let grid1 : List (List (Vertex3D K)) :=
    (List.range (res + 1)).map fun i =>
      (List.range (res + 1)).map fun j =>
        firstPassVertex f (vertexAt s i j) (gridCoord s.range res j)
          (gridCoord s.range res i)
  let mm := trackMinMax f (loopPoints res s.range)
  let grid2 := grid1.map fun row =>
    row.map fun v => { v with color := color_from_height (normalizeZ mm v.position.z) }
  { s with vertices := grid2 }

/-- Projection of one vertex (inlined in the source's loops):
`rotated = rotation_matrix * position * zoom`, output `(rotated.x, rotated.z)`. -/
def projectVertex (M : Mat3 K) (zoom : K) (v : Vertex3D K) : K × K :=
  let rotated := (M.mulVec v.position).smul zoom
  (rotated.x, rotated.z)

/-- `Surface::project_points`: push the projected point and the vertex
color for every vertex, iterating rows then the vertices of each row. -/
def Surface.project_points (s : Surface K) (M : Mat3 K) (zoom : K) :
    List (K × K) × List Color32 :=
  s.vertices.foldl
    (fun acc row =>
      row.foldl
        (fun acc2 v => (acc2.1 ++ [projectVertex M zoom v], acc2.2 ++ [v.color]))
        acc)
    ([], [])

/-- Model of an `egui_plot::Line`: a named polyline with a color and a
stroke width. -/
structure WLine (K : Type) where
  name : String
  points : List (K × K)
  color : Color32
  width : K
  deriving DecidableEq

/-- `Surface::get_wireframe_lines`: one polyline per row index `i`
(projected points across all columns `j`), then one per column index `j`
(across all rows `i`), each gray with width 1. -/
def Surface.get_wireframe_lines (s : Surface K) (M : Mat3 K) (zoom : K) :
    List (WLine K) :=
  let n := s.resolution + 1
  let proj : ℕ → ℕ → K × K := fun i j => projectVertex M zoom (vertexAt s i j)
  let rowLines :=
    (List.range n).foldl
      (fun acc i =>
        acc ++ [⟨"row_" ++ toString i,
                 (List.range n).foldl (fun a j => a ++ [proj i j]) [],
                 Color32.from_gray 180, 1⟩])
      []
  (List.range n).foldl
    (fun acc j =>
      acc ++ [⟨"col_" ++ toString j,
               (List.range n).foldl (fun a i => a ++ [proj i j]) [],
               Color32.from_gray 180, 1⟩])
    rowLines

end SurfaceOps

/-- An IEEE `f64` outcome: a finite value, or one of the non-finite
results that `is_finite` rejects. -/
inductive FVal (K : Type) where
  | finite (v : K)
  | nan
  | inf
  | neginf
  deriving DecidableEq

def FVal.is_finite {K : Type} : FVal K → Bool
  | .finite _ => true
  | _ => false

/-- Model of `meval::Expr` (external library type), by its evaluation
behaviour under a context binding `x` and `y`:
`eval_with_context` returns either an evaluation error or an `f64` that
may or may not be finite. -/
def MExpr (K : Type) : Type := K → K → Except String (FVal K)

/-- The closure `update_surface_data` hands to the mesh: successes that
are finite pass through as `Some(z)`, every other outcome (evaluation
error, NaN, ±infinity) becomes `None`. -/
def evalWrap {K : Type} (expr : MExpr K) : K → K → Option K := fun x y =>
  match expr x y with
  | .ok (.finite z) => some z
  | _ => none

/-- Model of the `RustGrapherApp` state struct (UI-only widget fields are
carried as plain data). -/
structure RustGrapherApp (K : Type) where
  expression : String
  expression_obj : Option (MExpr K)
  rotation_x : K
  rotation_y : K
  rotation_z : K
  zoom : K
  grid_resolution : ℕ
  range : K
  error_message : Option String
  example_expressions : List String
  surface : Surface K
  show_wireframe : Bool
  show_points : Bool
  auto_rotate : Bool

section App

variable {K : Type} [LinearOrderedField K] [FloorRing K]

/-- `RustGrapherApp::update_surface_data`: replace the surface by a fresh
one at the current resolution and range, filled from the wrapped
evaluator. -/
def RustGrapherApp.update_surface_data (app : RustGrapherApp K) (expr : MExpr K) :
    RustGrapherApp K :=
  { app with
    surface := (Surface.new app.grid_resolution app.range).generate_from_expression
      (evalWrap expr) }

/-- `RustGrapherApp::compile_expression`; the `meval` parser is external
library code, so it is passed in as the function `parse`.  On success the
expression object is stored, the error cleared and the surface rebuilt; on
failure the error message is set and the expression object cleared. -/
def RustGrapherApp.compile_expression (parse : String → Except String (MExpr K))
    (app : RustGrapherApp K) : RustGrapherApp K :=
  match parse app.expression with
  | .ok e =>
      ({ app with expression_obj := some e, error_message := none } :
        RustGrapherApp K).update_surface_data e
  | .error err =>
      { app with
        error_message := some ("Error parsing expression: " ++ err),
        expression_obj := none }

end App

/-- `f32::to_radians`: multiply by π/180. -/
noncomputable def toRadians (d : ℝ) : ℝ := d * (Real.pi / 180)

/-- `glam::Mat3::from_rotation_x`. -/
noncomputable def Mat3.from_rotation_x (a : ℝ) : Mat3 ℝ :=
  ⟨1, 0, 0,
   0, Real.cos a, -Real.sin a,
   0, Real.sin a, Real.cos a⟩

/-- `glam::Mat3::from_rotation_y`. -/
noncomputable def Mat3.from_rotation_y (a : ℝ) : Mat3 ℝ :=
  ⟨Real.cos a, 0, Real.sin a,
   0, 1, 0,
   -Real.sin a, 0, Real.cos a⟩

/-- `glam::Mat3::from_rotation_z`. -/
noncomputable def Mat3.from_rotation_z (a : ℝ) : Mat3 ℝ :=
  ⟨Real.cos a, -Real.sin a, 0,
   Real.sin a, Real.cos a, 0,
   0, 0, 1⟩

/-- `rotation_matrix` from src/main.rs: convert the three Euler angles
from degrees to radians and combine `rot_x * rot_y * rot_z`. -/
noncomputable def rotation_matrix (x_deg y_deg z_deg : ℝ) : Mat3 ℝ :=
  let x_rad := toRadians x_deg
  let y_rad := toRadians y_deg
  let z_rad := toRadians z_deg
  let rot_x := Mat3.from_rotation_x x_rad
  let rot_y := Mat3.from_rotation_y y_rad
  let rot_z := Mat3.from_rotation_z z_rad
  (rot_x.mul rot_y).mul rot_z

section Helpers

variable {α β γ : Type}

/-- A loop that pushes `f x` for each element is the same as appending the
map. -/
theorem foldl_push (f : α → β) (l : List α) (init : List β) :
    l.foldl (fun acc x => acc ++ [f x]) init = init ++ l.map f := by
  induction l generalizing init with
  | nil => simp
  | cons h t ih => simp [ih, List.append_assoc]

/-- A loop that pushes `f x` onto one list and `g x` onto a parallel list. -/
theorem foldl_push_pair (f : α → β) (g : α → γ) (l : List α)
    (acc : List β × List γ) :
    l.foldl (fun a v => (a.1 ++ [f v], a.2 ++ [g v])) acc =
      (acc.1 ++ l.map f, acc.2 ++ l.map g) := by
  induction l generalizing acc with
  | nil => simp
  | cons h t ih => simp [ih, List.append_assoc]

/-- Element `i` of a map over `List.range n`, through the `getD` accessor. -/
theorem getD_map_range (f : ℕ → α) {n i : ℕ} (hi : i < n) (d : α) :
    ((List.range n).map f).getD i d = f i := by
  simp [List.getD_eq_getElem?_getD, List.getElem?_map, List.getElem?_range hi]

end Helpers

section MinMaxLemmas

variable {K : Type} [LinearOrderedField K]

/-- Once both trackers hold values, the fold computes the running min and
max over the remaining successes. -/
theorem mmfold_some (f : K → K → Option K) (pts : List (K × K)) (a b : K) :
    pts.foldl (mmStep f) (some a, some b) =
      (some ((pts.filterMap fun p => f p.1 p.2).foldl min a),
       some ((pts.filterMap fun p => f p.1 p.2).foldl max b)) := by
  induction pts generalizing a b with
  | nil => simp
  | cons p t ih =>
    cases hp : f p.1 p.2 with
    | some z => simp [mmStep, hp, ih]
    | none => simp [mmStep, hp, ih]

/-- The trackers after the whole first pass are the `min?` / `max?` of the
successful evaluations, in loop order. -/
theorem trackMinMax_eq (f : K → K → Option K) (pts : List (K × K)) :
    trackMinMax f pts =
      ((pts.filterMap fun p => f p.1 p.2).min?,
       (pts.filterMap fun p => f p.1 p.2).max?) := by
  unfold trackMinMax
  induction pts with
  | nil => simp
  | cons p t ih =>
    cases hp : f p.1 p.2 with
    | some z => simp [mmStep, hp, mmfold_some, List.min?, List.max?]
    | none => simp [mmStep, hp, ih]

end MinMaxLemmas

section GridLemmas

variable {K : Type} [LinearOrderedField K] [FloorRing K]

omit [FloorRing K] in
/-- Both branches of the first pass write the position `(x, y, z-or-0)`. -/
theorem firstPassVertex_position (f : K → K → Option K) (old : Vertex3D K) (x y : K) :
    (firstPassVertex f old x y).position = ⟨x, y, (f x y).getD 0⟩ := by
  cases h : f x y <;> simp [firstPassVertex, h]

/-- Full characterisation of a rebuilt vertex: position from the sample
coordinates and the evaluation outcome, color from the normalised height
of the stored `z`. -/
theorem generate_vertexAt (s : Surface K) (f : K → K → Option K) {i j : ℕ}
    (hi : i ≤ s.resolution) (hj : j ≤ s.resolution) :
    vertexAt (s.generate_from_expression f) i j =
      ⟨⟨gridCoord s.range s.resolution j, gridCoord s.range s.resolution i,
        (f (gridCoord s.range s.resolution j) (gridCoord s.range s.resolution i)).getD 0⟩,
       color_from_height
         (normalizeZ (trackMinMax f (loopPoints s.resolution s.range))
           ((f (gridCoord s.range s.resolution j)
               (gridCoord s.range s.resolution i)).getD 0))⟩ := by
  have hi' : i < s.resolution + 1 := Nat.lt_succ_of_le hi
  have hj' : j < s.resolution + 1 := Nat.lt_succ_of_le hj
  show ((((s.generate_from_expression f).vertices).getD i []).getD j _) = _
  simp only [Surface.generate_from_expression, List.map_map]
  rw [getD_map_range _ hi']
  simp only [Function.comp, List.map_map]
  rw [getD_map_range _ hj']
  simp only [Function.comp]
  cases h : f (gridCoord s.range s.resolution j) (gridCoord s.range s.resolution i) <;>
    simp [firstPassVertex, h]

/-- The rebuilt grid has `resolution + 1` rows of `resolution + 1`
vertices each. -/
theorem generate_shape (s : Surface K) (f : K → K → Option K) :
    (s.generate_from_expression f).vertices.length = s.resolution + 1 ∧
      ∀ row ∈ (s.generate_from_expression f).vertices, row.length = s.resolution + 1 := by
  constructor
  · simp [Surface.generate_from_expression]
  · intro row hrow
    simp only [Surface.generate_from_expression, List.map_map, List.mem_map] at hrow
    obtain ⟨i, -, rfl⟩ := hrow
    simp

end GridLemmas

/-- C4: for every `resolution ≥ 1` and `range > 0`, a rebuilt mesh has
exactly `(resolution+1) × (resolution+1)` vertices; with step
`s = 2·range/resolution`, vertex `(i, j)` is placed at
`y = -range + i·s` and `x = -range + j·s`; corner `(0, 0)` has
`x = y = -range` and corner `(resolution, resolution)` has
`x = y = +range` exactly. -/
theorem rebuilt_mesh_grid_spec (res : ℕ) (range : ℚ) (f : ℚ → ℚ → Option ℚ)
    (hres : 1 ≤ res) (hrange : 0 < range) :
    ((Surface.new res range).generate_from_expression f).vertices.length = res + 1 ∧
    (∀ row ∈ ((Surface.new res range).generate_from_expression f).vertices,
      row.length = res + 1) ∧
    ((Surface.new res range).generate_from_expression f).vertices.flatten.length =
      (res + 1) * (res + 1) ∧
    (∀ i j : ℕ, i ≤ res → j ≤ res →
      (vertexAt ((Surface.new res range).generate_from_expression f) i j).position.x =
        -range + (j : ℚ) * (2 * range / (res : ℚ)) ∧
      (vertexAt ((Surface.new res range).generate_from_expression f) i j).position.y =
        -range + (i : ℚ) * (2 * range / (res : ℚ))) ∧
    (vertexAt ((Surface.new res range).generate_from_expression f) 0 0).position.x =
      -range ∧
    (vertexAt ((Surface.new res range).generate_from_expression f) 0 0).position.y =
      -range ∧
    (vertexAt ((Surface.new res range).generate_from_expression f) res res).position.x =
      range ∧
    (vertexAt ((Surface.new res range).generate_from_expression f) res res).position.y =
      range := by
  have hres0 : (res : ℚ) ≠ 0 := Nat.cast_ne_zero.mpr (by omega)
  have hshape := generate_shape (Surface.new res range) f
  have hrows : ((Surface.new res range).generate_from_expression f).vertices.length =
      res + 1 := hshape.1
  have hrow : ∀ row ∈ ((Surface.new res range).generate_from_expression f).vertices,
      row.length = res + 1 := hshape.2
  have hcoord : ∀ i j : ℕ, i ≤ res → j ≤ res →
      (vertexAt ((Surface.new res range).generate_from_expression f) i j).position.x =
        -range + (j : ℚ) * (2 * range / (res : ℚ)) ∧
      (vertexAt ((Surface.new res range).generate_from_expression f) i j).position.y =
        -range + (i : ℚ) * (2 * range / (res : ℚ)) := by
    intro i j hi hj
    rw [generate_vertexAt (Surface.new res range) f hi hj]
    simp [gridCoord, Surface.new]
  refine ⟨hrows, hrow, ?_, hcoord, ?_, ?_, ?_, ?_⟩
  · rw [List.length_flatten]
    have : ((Surface.new res range).generate_from_expression f).vertices.map
        List.length = List.replicate (res + 1) (res + 1) := by
      refine List.eq_replicate_iff.mpr ⟨by simp [hrows], ?_⟩
      intro b hb
      simp only [List.mem_map] at hb
      obtain ⟨row, hrowmem, rfl⟩ := hb
      exact hrow row hrowmem
    rw [this, List.sum_replicate, smul_eq_mul]
  · simpa using (hcoord 0 0 (by omega) (by omega)).1
  · simpa using (hcoord 0 0 (by omega) (by omega)).2
  · have h := (hcoord res res le_rfl le_rfl).1
    rw [h]
    field_simp
    ring
  · have h := (hcoord res res le_rfl le_rfl).2
    rw [h]
    field_simp
    ring

/-- C5: during `generate_from_expression`, every failed grid point stores
the fallback position `(x, y, 0.0)`, and the `min_z` / `max_z` trackers
after the first pass are exactly the minimum and maximum over the
successful evaluations only (in loop order), untouched by failures. -/
theorem failed_points_fallback_minmax (s : Surface ℚ) (f : ℚ → ℚ → Option ℚ) :
    (∀ i j : ℕ, i ≤ s.resolution → j ≤ s.resolution →
      f (gridCoord s.range s.resolution j) (gridCoord s.range s.resolution i) = none →
      (vertexAt (s.generate_from_expression f) i j).position =
        ⟨gridCoord s.range s.resolution j, gridCoord s.range s.resolution i, 0⟩) ∧
    trackMinMax f (loopPoints s.resolution s.range) =
      (((loopPoints s.resolution s.range).filterMap fun p => f p.1 p.2).min?,
       ((loopPoints s.resolution s.range).filterMap fun p => f p.1 p.2).max?) := by
  constructor
  · intro i j hi hj hf
    rw [generate_vertexAt s f hi hj]
    simp [hf]
  · exact trackMinMax_eq f _

/-- Witness for C5: a 2×2 grid where the evaluator fails at the corner
`(-1, -1)` and succeeds elsewhere. -/
theorem failed_points_fallback_minmax_witness :
    ((0 : ℕ) ≤ (Surface.new 1 (1 : ℚ)).resolution ∧
      (fun x y : ℚ => if x < 0 ∧ y < 0 then none else some (x + y))
        (gridCoord (Surface.new 1 (1 : ℚ)).range (Surface.new 1 (1 : ℚ)).resolution 0)
        (gridCoord (Surface.new 1 (1 : ℚ)).range (Surface.new 1 (1 : ℚ)).resolution 0) =
        none) ∧
    (vertexAt ((Surface.new 1 (1 : ℚ)).generate_from_expression
        fun x y : ℚ => if x < 0 ∧ y < 0 then none else some (x + y)) 0 0).position =
      ⟨gridCoord (Surface.new 1 (1 : ℚ)).range (Surface.new 1 (1 : ℚ)).resolution 0,
       gridCoord (Surface.new 1 (1 : ℚ)).range (Surface.new 1 (1 : ℚ)).resolution 0, 0⟩ := by
  have hf : (fun x y : ℚ => if x < 0 ∧ y < 0 then none else some (x + y))
      (gridCoord (Surface.new 1 (1 : ℚ)).range (Surface.new 1 (1 : ℚ)).resolution 0)
      (gridCoord (Surface.new 1 (1 : ℚ)).range (Surface.new 1 (1 : ℚ)).resolution 0) =
      none := by
    norm_num [gridCoord, Surface.new]
  exact ⟨⟨Nat.zero_le _, hf⟩,
    (failed_points_fallback_minmax (Surface.new 1 1) _).1 0 0 (Nat.zero_le _)
      (Nat.zero_le _) hf⟩

/-- C2: after `update_surface_data`, the `z` stored at every grid point is
either a value the raw evaluator returned as a finite result at that
point's sample coordinates, or the fallback `0.0` used precisely when the
raw evaluation errored or produced a non-finite value — so a NaN or
infinity can never reach the mesh. -/
theorem update_surface_finite_z (app : RustGrapherApp ℚ) (e : MExpr ℚ) :
    ∀ i j : ℕ, i ≤ app.grid_resolution → j ≤ app.grid_resolution →
      (e (gridCoord app.range app.grid_resolution j) (gridCoord app.range app.grid_resolution i)
          = Except.ok (FVal.finite
              ((vertexAt (app.update_surface_data e).surface i j).position.z)) ∨
        ((vertexAt (app.update_surface_data e).surface i j).position.z = 0 ∧
          ∀ z : ℚ,
            e (gridCoord app.range app.grid_resolution j)
              (gridCoord app.range app.grid_resolution i) ≠
              Except.ok (FVal.finite z))) := by
  intro i j hi hj
  have h := generate_vertexAt (Surface.new app.grid_resolution app.range) (evalWrap e)
    (i := i) (j := j) hi hj
  have hs : (vertexAt (app.update_surface_data e).surface i j).position.z =
      (evalWrap e (gridCoord app.range app.grid_resolution j)
        (gridCoord app.range app.grid_resolution i)).getD 0 := by
    show (vertexAt ((Surface.new app.grid_resolution app.range).generate_from_expression
      (evalWrap e)) i j).position.z = _
    rw [h]
    rfl
  rw [hs]
  cases he : e (gridCoord app.range app.grid_resolution j)
      (gridCoord app.range app.grid_resolution i) with
  | ok v =>
    cases v with
    | finite z => exact Or.inl (by simp [evalWrap, he])
    | nan => exact Or.inr ⟨by simp [evalWrap, he], by simp [he]⟩
    | inf => exact Or.inr ⟨by simp [evalWrap, he], by simp [he]⟩
    | neginf => exact Or.inr ⟨by simp [evalWrap, he], by simp [he]⟩
  | error msg => exact Or.inr ⟨by simp [evalWrap, he], by simp [he]⟩

/-- A concrete application state used by the witnesses below, mirroring
the defaults set in `RustGrapherApp::new` (with a small grid). -/
def sampleApp : RustGrapherApp ℚ where
  expression := "sin(x) * cos(y)"
  expression_obj := none
  rotation_x := 30
  rotation_y := 30
  rotation_z := 0
  zoom := 4/5
  grid_resolution := 1
  range := 1
  error_message := none
  example_expressions := ["sin(x) * cos(y)", "x^2 + y^2"]
  surface := Surface.new 1 1
  show_wireframe := true
  show_points := true
  auto_rotate := false

/-- An evaluator that yields NaN on the axes and a finite product
elsewhere, used by the witness for C2. -/
def nanOnAxes : MExpr ℚ := fun x y =>
  if x = 0 ∨ y = 0 then Except.ok FVal.nan else Except.ok (FVal.finite (x * y))

/-- Witness for C2: the NaN-on-axes evaluator, inspected at grid point
`(0, 0)`. -/
theorem update_surface_finite_z_witness :
    ((0 : ℕ) ≤ sampleApp.grid_resolution ∧ (0 : ℕ) ≤ sampleApp.grid_resolution) ∧
    (nanOnAxes (gridCoord sampleApp.range sampleApp.grid_resolution 0)
        (gridCoord sampleApp.range sampleApp.grid_resolution 0)
        = Except.ok (FVal.finite
            ((vertexAt (sampleApp.update_surface_data nanOnAxes).surface 0 0).position.z)) ∨
      ((vertexAt (sampleApp.update_surface_data nanOnAxes).surface 0 0).position.z = 0 ∧
        ∀ z : ℚ,
          nanOnAxes (gridCoord sampleApp.range sampleApp.grid_resolution 0)
            (gridCoord sampleApp.range sampleApp.grid_resolution 0) ≠
            Except.ok (FVal.finite z))) :=
  ⟨⟨Nat.zero_le _, Nat.zero_le _⟩,
    update_surface_finite_z sampleApp nanOnAxes 0 0 (Nat.zero_le _) (Nat.zero_le _)⟩

/-- Counterexample for C1 as stated: on a parse failure the stored
compiled expression does not remain unchanged — `compile_expression` sets
`expression_obj` to `None`, clearing the previously compiled expression. -/
theorem compile_expression_clears_expr_ce :
    (RustGrapherApp.compile_expression (fun _ => Except.error "oops")
        { sampleApp with
          expression_obj := some fun _ _ => Except.ok (FVal.finite 0) }).expression_obj ≠
      ({ sampleApp with
          expression_obj := some fun _ _ => Except.ok (FVal.finite 0) } :
        RustGrapherApp ℚ).expression_obj := by
  simp [RustGrapherApp.compile_expression]

/-- C1 amended: on a parse failure `compile_expression` leaves the surface
mesh (every vertex) and all other state except the error message and the
compiled-expression slot unchanged, sets the error message from the parse
error, and clears the stored compiled expression to `None` (rather than
leaving it unchanged, as the claim stated). -/
theorem compile_expression_parse_error (app : RustGrapherApp ℚ)
    (parse : String → Except String (MExpr ℚ)) (err : String)
    (h : parse app.expression = Except.error err) :
    (app.compile_expression parse).surface = app.surface ∧
    (app.compile_expression parse).error_message =
      some ("Error parsing expression: " ++ err) ∧
    (app.compile_expression parse).expression_obj = none ∧
    (app.compile_expression parse).expression = app.expression ∧
    (app.compile_expression parse).grid_resolution = app.grid_resolution ∧
    (app.compile_expression parse).range = app.range := by
  simp [RustGrapherApp.compile_expression, h]

/-- Witness for C1 (amended): a parser that always fails, applied to the
sample state. -/
theorem compile_expression_parse_error_witness :
    ((fun _ : String => (Except.error "oops" : Except String (MExpr ℚ)))
        sampleApp.expression = Except.error "oops") ∧
    ((sampleApp.compile_expression fun _ => Except.error "oops").surface =
        sampleApp.surface ∧
      (sampleApp.compile_expression fun _ => Except.error "oops").error_message =
        some ("Error parsing expression: " ++ "oops") ∧
      (sampleApp.compile_expression fun _ => Except.error "oops").expression_obj = none ∧
      (sampleApp.compile_expression fun _ => Except.error "oops").expression =
        sampleApp.expression ∧
      (sampleApp.compile_expression fun _ => Except.error "oops").grid_resolution =
        sampleApp.grid_resolution ∧
      (sampleApp.compile_expression fun _ => Except.error "oops").range =
        sampleApp.range) :=
  ⟨rfl, compile_expression_parse_error sampleApp (fun _ => Except.error "oops") "oops" rfl⟩

/-- Witness for C4 at `resolution = 2`, `range = 1`, the constant-zero
evaluator. -/
theorem rebuilt_mesh_grid_spec_witness :
    (1 ≤ 2 ∧ (0 : ℚ) < 1) ∧
    (((Surface.new 2 (1 : ℚ)).generate_from_expression fun _ _ =>
        some 0).vertices.length = 2 + 1 ∧
     (∀ row ∈ ((Surface.new 2 (1 : ℚ)).generate_from_expression fun _ _ =>
        some 0).vertices, row.length = 2 + 1) ∧
     ((Surface.new 2 (1 : ℚ)).generate_from_expression fun _ _ =>
        some 0).vertices.flatten.length = (2 + 1) * (2 + 1) ∧
     (∀ i j : ℕ, i ≤ 2 → j ≤ 2 →
       (vertexAt ((Surface.new 2 (1 : ℚ)).generate_from_expression fun _ _ =>
          some 0) i j).position.x = -1 + (j : ℚ) * (2 * (1 : ℚ) / ((2 : ℕ) : ℚ)) ∧
       (vertexAt ((Surface.new 2 (1 : ℚ)).generate_from_expression fun _ _ =>
          some 0) i j).position.y = -1 + (i : ℚ) * (2 * (1 : ℚ) / ((2 : ℕ) : ℚ))) ∧
     (vertexAt ((Surface.new 2 (1 : ℚ)).generate_from_expression fun _ _ =>
        some 0) 0 0).position.x = -1 ∧
     (vertexAt ((Surface.new 2 (1 : ℚ)).generate_from_expression fun _ _ =>
        some 0) 0 0).position.y = -1 ∧
     (vertexAt ((Surface.new 2 (1 : ℚ)).generate_from_expression fun _ _ =>
        some 0) 2 2).position.x = 1 ∧
     (vertexAt ((Surface.new 2 (1 : ℚ)).generate_from_expression fun _ _ =>
        some 0) 2 2).position.y = 1) :=
  ⟨⟨by norm_num, by norm_num⟩,
   rebuilt_mesh_grid_spec 2 1 (fun _ _ => some 0) (by norm_num) (by norm_num)⟩

/-- C6: whenever the tracked height range is degenerate after the first
pass (the source's `max_z > min_z` test fails — constant surface,
all-failure grid, or single success value), the second pass assigns every
vertex the color of normalised height `0.5`, with no division
performed. -/
theorem degenerate_range_midpoint_color (s : Surface ℚ) (f : ℚ → ℚ → Option ℚ)
    (h : degenCheck (trackMinMax f (loopPoints s.resolution s.range)) = false) :
    ∀ v ∈ (s.generate_from_expression f).vertices.flatten,
      v.color = color_from_height ((1 : ℚ)/2) := by
  intro v hv
  simp only [Surface.generate_from_expression, List.map_map, List.mem_flatten,
    List.mem_map] at hv
  obtain ⟨row, ⟨i, hi, rfl⟩, hvrow⟩ := hv
  simp only [Function.comp, List.mem_map] at hvrow
  obtain ⟨j, hj, rfl⟩ := hvrow
  simp [normalizeZ, h]

/-- Witness for C6: the constant surface `z = 5` on a 2×2 grid is entirely
painted with the midpoint color. -/
theorem degenerate_range_midpoint_color_witness :
    degenCheck (trackMinMax (fun _ _ : ℚ => some 5)
        (loopPoints (Surface.new 1 (1 : ℚ)).resolution (Surface.new 1 (1 : ℚ)).range)) =
      false ∧
    ∀ v ∈ ((Surface.new 1 (1 : ℚ)).generate_from_expression
        fun _ _ : ℚ => some 5).vertices.flatten,
      v.color = color_from_height ((1 : ℚ)/2) := by
  have h : degenCheck (trackMinMax (fun _ _ : ℚ => some 5)
      (loopPoints (Surface.new 1 (1 : ℚ)).resolution (Surface.new 1 (1 : ℚ)).range)) =
      false := by
    norm_num [trackMinMax, loopPoints, mmStep, gridCoord, degenCheck, Surface.new,
      List.range_succ]
  exact ⟨h, degenerate_range_midpoint_color (Surface.new 1 1) _ h⟩

/-- C7: when at least one grid point fails while the tracked range is
non-degenerate with all successful heights strictly positive (or all
strictly negative), the failed vertex's fallback height `0.0` normalises
outside `[0, 1]`, so the color pass paints it with the sentinel black. -/
theorem failed_vertex_black (s : Surface ℚ) (f : ℚ → ℚ → Option ℚ) (i j : ℕ) (a b : ℚ)
    (hi : i ≤ s.resolution) (hj : j ≤ s.resolution)
    (hf : f (gridCoord s.range s.resolution j) (gridCoord s.range s.resolution i) = none)
    (hmm : trackMinMax f (loopPoints s.resolution s.range) = (some a, some b))
    (hab : a < b) (hsign : 0 < a ∨ b < 0) :
    (vertexAt (s.generate_from_expression f) i j).color = Color32.BLACK := by
  rw [generate_vertexAt s f hi hj]
  simp only [hf, Option.getD_none, hmm]
  have hdeg : degenCheck ((some a, some b) : Option ℚ × Option ℚ) = true := by
    simp [degenCheck, hab]
  have hba : (0 : ℚ) < b - a := sub_pos.mpr hab
  have hnorm : normalizeZ ((some a, some b) : Option ℚ × Option ℚ) 0 = (0 - a) / (b - a) := by
    simp [normalizeZ, hdeg]
  rw [hnorm]
  rcases hsign with ha | hb
  · have hlt : (0 - a) / (b - a) < 0 := div_neg_of_neg_of_pos (by linarith) hba
    rw [color_from_height]
    rw [if_pos (Or.inl hlt)]
  · have hgt : (1 : ℚ) < (0 - a) / (b - a) := by
      rw [lt_div_iff hba]
      linarith
    rw [color_from_height]
    rw [if_pos (Or.inr hgt)]

/-- The evaluator used by the witness for C7: it fails at `(-1, -1)` and
returns the strictly positive height `x + y + 5` elsewhere. -/
def failAtCorner : ℚ → ℚ → Option ℚ := fun x y =>
  if x < 0 ∧ y < 0 then none else some (x + y + 5)

/-- Witness for C7 on a 2×2 grid: successes have min 5 and max 7, the
corner fails, and its vertex is painted black. -/
theorem failed_vertex_black_witness :
    ((0 : ℕ) ≤ (Surface.new 1 (1 : ℚ)).resolution ∧
      failAtCorner (gridCoord (Surface.new 1 (1 : ℚ)).range
          (Surface.new 1 (1 : ℚ)).resolution 0)
        (gridCoord (Surface.new 1 (1 : ℚ)).range
          (Surface.new 1 (1 : ℚ)).resolution 0) = none ∧
      trackMinMax failAtCorner (loopPoints (Surface.new 1 (1 : ℚ)).resolution
          (Surface.new 1 (1 : ℚ)).range) = (some 5, some 7) ∧
      (5 : ℚ) < 7 ∧ ((0 : ℚ) < 5 ∨ (7 : ℚ) < 0)) ∧
    (vertexAt ((Surface.new 1 (1 : ℚ)).generate_from_expression failAtCorner) 0 0).color =
      Color32.BLACK := by
  have hf : failAtCorner (gridCoord (Surface.new 1 (1 : ℚ)).range
      (Surface.new 1 (1 : ℚ)).resolution 0)
      (gridCoord (Surface.new 1 (1 : ℚ)).range
        (Surface.new 1 (1 : ℚ)).resolution 0) = none := by
    norm_num [failAtCorner, gridCoord, Surface.new]
  have hmm : trackMinMax failAtCorner (loopPoints (Surface.new 1 (1 : ℚ)).resolution
      (Surface.new 1 (1 : ℚ)).range) = (some 5, some 7) := by
    norm_num [trackMinMax, loopPoints, mmStep, gridCoord, failAtCorner, Surface.new,
      List.range_succ]
  exact ⟨⟨Nat.zero_le _, hf, hmm, by norm_num, Or.inl (by norm_num)⟩,
    failed_vertex_black (Surface.new 1 1) failAtCorner 0 0 5 7 (Nat.zero_le _)
      (Nat.zero_le _) hf hmm (by norm_num) (Or.inl (by norm_num))⟩

/-- Counterexample for C3 as stated: at `h = 0.001` the code truncates
`255·t = 0.51` to channel value `0`, while the claim's reference
definition rounds it to `1`, so the two disagree. -/
theorem color_from_height_round_ce :
    color_from_height ((1 : ℚ)/1000) ≠ color_from_height_spec ((1 : ℚ)/1000) := by
  have hl : color_from_height ((1 : ℚ)/1000) = Color32.from_rgb 0 0 254 := by
    norm_num [color_from_height, f64_as_u8]
    rfl
  have hr : color_from_height_spec ((1 : ℚ)/1000) = Color32.from_rgb 1 1 254 := by
    norm_num [color_from_height_spec, round_eq]
    rfl
  rw [hl, hr]
  simp [Color32.from_rgb]

/-- C3 amended: `color_from_height` equals the spec's reference definition
with each `round` replaced by the saturating truncation toward zero that
the Rust `as u8` cast performs; the sentinel-black branch and both
endpoint values are as the claim states. -/
theorem color_from_height_trunc_correct :
    (∀ h : ℚ, color_from_height h = color_from_height_spec_trunc h) ∧
    color_from_height (0 : ℚ) = Color32.from_rgb 0 0 255 ∧
    color_from_height (1 : ℚ) = Color32.from_rgb 255 0 0 ∧
    (∀ h : ℚ, (h < 0 ∨ 1 < h) → color_from_height h = Color32.BLACK) := by
  refine ⟨?_, ?_, ?_, ?_⟩
  · intro h
    have e1 : h * 2 * 255 = 255 * (2 * h) := by ring
    have e2 : (1 - h * 2) * 255 = 255 * (1 - 2 * h) := by ring
    have e3 : (1 - (h - 1/2) * 2) * 255 = 255 * (1 - 2 * (h - 1/2)) := by ring
    simp only [color_from_height, color_from_height_spec_trunc]
    rw [e1, e2, e3]
  · norm_num [color_from_height, f64_as_u8]
  · norm_num [color_from_height, f64_as_u8]
  · intro h hout
    rw [color_from_height, if_pos hout]

/-- Witness for C3 (amended), at the out-of-range input `h = 1.5`. -/
theorem color_from_height_trunc_correct_witness :
    ((3 : ℚ)/2 < 0 ∨ (1 : ℚ) < 3/2) ∧
    color_from_height ((3 : ℚ)/2) = Color32.BLACK :=
  ⟨Or.inr (by norm_num),
    color_from_height_trunc_correct.2.2.2 (3/2) (Or.inr (by norm_num))⟩

/-- Matrix-matrix then matrix-vector application agrees with successive
matrix-vector applications: `(A·B)·v = A·(B·v)`. -/
theorem Mat3.mul_mulVec {K : Type} [Field K] (A B : Mat3 K) (v : Vec3 K) :
    (A.mul B).mulVec v = A.mulVec (B.mulVec v) := by
  simp only [Mat3.mul, Mat3.mulVec, Vec3.mk.injEq]
  exact ⟨by ring, by ring, by ring⟩

/-- C8: `rotation_matrix` converts each angle from degrees to radians and
returns the product `Rx · Ry · Rz` of the elementary rotations, so that a
vector is rotated about Z first, then Y, then X; and
`rotation_matrix(0,0,0)` is the identity matrix. -/
theorem rotation_matrix_spec :
    (∀ x y z : ℝ, rotation_matrix x y z =
      ((Mat3.from_rotation_x (toRadians x)).mul
        (Mat3.from_rotation_y (toRadians y))).mul
        (Mat3.from_rotation_z (toRadians z))) ∧
    (∀ (x y z : ℝ) (v : Vec3 ℝ),
      (rotation_matrix x y z).mulVec v =
        (Mat3.from_rotation_x (toRadians x)).mulVec
          ((Mat3.from_rotation_y (toRadians y)).mulVec
            ((Mat3.from_rotation_z (toRadians z)).mulVec v))) ∧
    rotation_matrix 0 0 0 = Mat3.identity := by
  refine ⟨fun x y z => rfl, ?_, ?_⟩
  · intro x y z v
    rw [show rotation_matrix x y z =
        ((Mat3.from_rotation_x (toRadians x)).mul
          (Mat3.from_rotation_y (toRadians y))).mul
          (Mat3.from_rotation_z (toRadians z)) from rfl]
    rw [Mat3.mul_mulVec, Mat3.mul_mulVec]
  · have hr : toRadians 0 = 0 := by simp [toRadians]
    simp only [rotation_matrix, hr, Mat3.from_rotation_x, Mat3.from_rotation_y,
      Mat3.from_rotation_z, Real.cos_zero, Real.sin_zero, Mat3.mul, Mat3.identity,
      Mat3.mk.injEq]
    norm_num

/-- C9: `project_points` emits, in row-major order, the pair
`(rotated.x, rotated.z)` of `rotated = rotation · position · zoom` for
every vertex, with a parallel colors list of the same length; a vertex at
the origin projects to `(0, 0)` for every rotation matrix and zoom. -/
theorem project_points_spec (s : Surface ℚ) (M : Mat3 ℚ) (zoom : ℚ) :
    (s.project_points M zoom).1 = s.vertices.flatten.map (projectVertex M zoom) ∧
    (s.project_points M zoom).2 = s.vertices.flatten.map (fun v => v.color) ∧
    (s.project_points M zoom).1.length = (s.project_points M zoom).2.length ∧
    ∀ c : Color32, projectVertex M zoom ⟨⟨0, 0, 0⟩, c⟩ = (0, 0) := by
  have key : s.project_points M zoom =
      (s.vertices.flatten.map (projectVertex M zoom),
       s.vertices.flatten.map fun v => v.color) := by
    unfold Surface.project_points
    have aux : ∀ (rows : List (List (Vertex3D ℚ))) (acc : List (ℚ × ℚ) × List Color32),
        rows.foldl
          (fun a row => row.foldl
            (fun a2 v => (a2.1 ++ [projectVertex M zoom v], a2.2 ++ [v.color])) a)
          acc =
          (acc.1 ++ rows.flatten.map (projectVertex M zoom),
           acc.2 ++ rows.flatten.map fun v => v.color) := by
      intro rows
      induction rows with
      | nil => simp
      | cons r t ih =>
        intro acc
        rw [List.foldl_cons, foldl_push_pair, ih]
        simp [List.append_assoc]
    simp [aux]
  refine ⟨by rw [key], by rw [key], by rw [key]; simp only [List.length_map], ?_⟩
  intro c
  simp [projectVertex, Mat3.mulVec, Vec3.smul]

/-- C10: `get_wireframe_lines` returns exactly `2·(resolution+1)`
polylines — one per grid row, then one per grid column — each consisting
of exactly `resolution+1` projected points. -/
theorem wireframe_lines_spec (s : Surface ℚ) (M : Mat3 ℚ) (zoom : ℚ)
    (hlen : s.vertices.length = s.resolution + 1)
    (hrows : ∀ row ∈ s.vertices, row.length = s.resolution + 1) :
    (s.get_wireframe_lines M zoom).length = 2 * (s.resolution + 1) ∧
    ∀ l ∈ s.get_wireframe_lines M zoom, l.points.length = s.resolution + 1 := by
  unfold Surface.get_wireframe_lines
  simp only [foldl_push, List.nil_append]
  constructor
  · simp [List.length_append]
    ring
  · intro l hl
    simp only [List.mem_append, List.mem_map] at hl
    rcases hl with ⟨i, hi, rfl⟩ | ⟨j, hj, rfl⟩ <;> simp [foldl_push]

/-- Witness for C10 on the freshly allocated 2×2 surface with the
identity rotation and zoom 1. -/
theorem wireframe_lines_spec_witness :
    ((Surface.new 1 (1 : ℚ)).vertices.length = (Surface.new 1 (1 : ℚ)).resolution + 1 ∧
      ∀ row ∈ (Surface.new 1 (1 : ℚ)).vertices,
        row.length = (Surface.new 1 (1 : ℚ)).resolution + 1) ∧
    (((Surface.new 1 (1 : ℚ)).get_wireframe_lines Mat3.identity 1).length =
        2 * ((Surface.new 1 (1 : ℚ)).resolution + 1) ∧
      ∀ l ∈ (Surface.new 1 (1 : ℚ)).get_wireframe_lines Mat3.identity 1,
        l.points.length = (Surface.new 1 (1 : ℚ)).resolution + 1) := by
  have h1 : (Surface.new 1 (1 : ℚ)).vertices.length =
      (Surface.new 1 (1 : ℚ)).resolution + 1 := by simp [Surface.new]
  have h2 : ∀ row ∈ (Surface.new 1 (1 : ℚ)).vertices,
      row.length = (Surface.new 1 (1 : ℚ)).resolution + 1 := by
    intro row hrow
    simp only [Surface.new] at hrow ⊢
    rcases List.eq_of_mem_replicate hrow with rfl
    simp
  exact ⟨⟨h1, h2⟩, wireframe_lines_spec (Surface.new 1 1) Mat3.identity 1 h1 h2⟩

end RustGrapher
